import Mathlib

/-!
Shallow embedding of the `erred/githook` post-receive hook
(`cmd/post-receive/main.go`) in Lean 4.

The hook is a single synchronous pipeline: parse push options from the
environment, gate on the `ci.skip` option, derive the repository name from
the working directory, read one `<oldRev> <newRev> <refName>` line from
standard input, extract commit metadata through `git`, read an optional
`ci.cue` config at the pushed revision, dispatch to two CI backends
(buildkite REST trigger, tekton webhook trigger) and print a report.

External capabilities (environment variables, working directory, standard
input, the `git` binary, the HTTP client, and the JSON/CUE decoders applied
to externally produced bytes) are modelled as fields of a `World` record;
the pipeline itself is a pure function of the `World`.  All definitions are
executable so concrete worlds can be evaluated by `decide`.
-/

set_option maxRecDepth 4000

namespace Githook

/-! ### Go string primitives used by the hook -/

/-- Character-level whitespace predicate mirroring `unicode.IsSpace` on the
Latin-1 range (`strings.TrimSpace` fast path); the hook only ever trims
`git` output, which is ASCII plus a trailing newline. -/
def isGoSpace (c : Char) : Bool :=
  c = ' ' ∨ c = '\t' ∨ c = '\n' ∨ c = '\r' ∨ c = '\x0b' ∨ c = '\x0c' ∨
  c = '\x85' ∨ c = '\u00a0'

/-- Model of `strings.TrimSpace` (used by `mustExecGit` on combined git output). -/
def goTrimSpace (s : String) : String :=
  String.mk (((s.data.dropWhile isGoSpace).reverse.dropWhile isGoSpace).reverse)

/-- Model of `strings.Cut(s, sep)` for the single-character separator the hook
uses (`"="`): split at the first occurrence; when the separator is absent the
whole string is the first component and the second is empty, exactly as
`strings.Cut` returns `(s, "", false)`. -/
def cutChar (sep : Char) : List Char → List Char × List Char
  | [] => ([], [])
  | c :: rest =>
    if c = sep then ([], rest)
    else
      let p := cutChar sep rest
      (c :: p.1, p.2)

/-- Model of `strings.Cut(s, "=")` as used on `GIT_PUSH_OPTION_i` entries. -/
def goCutEq (s : String) : String × String :=
  let p := cutChar '=' s.data
  (String.mk p.1, String.mk p.2)

/-- Model of `path/filepath.Base` on Unix paths: empty input yields `"."`,
trailing slashes are dropped, the last path element is returned, an
all-slash input yields `"/"`. -/
def goFilepathBase (p : String) : String :=
  if p = "" then "."
  else
    let trimmed := (p.data.reverse.dropWhile (fun c => c = '/')).reverse
    if trimmed = [] then "/"
    else String.mk ((trimmed.reverse.takeWhile (fun c => c ≠ '/')).reverse)

/-- Model of `strings.TrimSuffix`: drop one trailing occurrence of the suffix
when present. -/
def goTrimSuffix (s suf : String) : String :=
  if suf.data.isSuffixOf s.data then
    String.mk (s.data.take (s.data.length - suf.data.length))
  else s

/-- Decimal digit run to a number; `none` when empty or a non-digit occurs. -/
def parseDigits (cs : List Char) : Option Nat :=
  if cs = [] then none
  else
    cs.foldl
      (fun acc c =>
        match acc with
        | none => none
        | some n => if c.isDigit then some (n * 10 + (c.toNat - '0'.toNat)) else none)
      (some 0)

/-- Model of `strconv.ParseInt(s, 10, 64)` with the error discarded, as the
hook does for `GIT_PUSH_OPTION_COUNT`: syntax errors yield 0, out-of-range
values are clamped to the int64 bounds (the value `ParseInt` returns
alongside its range error). -/
def goParseInt64 (s : String) : Int :=
  let cs := s.data
  let sgnDigits : Int × List Char :=
    match cs with
    | '+' :: rest => (1, rest)
    | '-' :: rest => (-1, rest)
    | _ => (1, cs)
  match parseDigits sgnDigits.2 with
  | none => 0
  | some n =>
    let v : Int := sgnDigits.1 * (n : Int)
    if v > (2 ^ 63 - 1 : Int) then (2 ^ 63 - 1 : Int)
    else if v < (-(2 ^ 63) : Int) then (-(2 ^ 63) : Int)
    else v

/-- Left-to-right non-overlapping scan of `strings.ReplaceAll`: at each
position, when the pattern is a prefix of the remaining input the
replacement is emitted and the scan resumes past the pattern, otherwise the
current character is kept.  The fuel argument (instantiated with the input
length, an upper bound on the number of steps since each step consumes at
least one character for a nonempty pattern) keeps the recursion structural
so that the function reduces inside the kernel. -/
def replaceAllScan (old new : List Char) : Nat → List Char → List Char
  | _, [] => []
  | 0, s => s
  | fuel + 1, c :: rest =>
    if old.isPrefixOf (c :: rest) then
      new ++ replaceAllScan old new fuel ((c :: rest).drop old.length)
    else
      c :: replaceAllScan old new fuel rest

/-- Model of `strings.ReplaceAll(s, old, new)` for a nonempty pattern (the
hook only calls it with the pattern `"."`; Go's empty-pattern behavior of
interleaving the replacement everywhere is not needed and not modelled). -/
def goReplaceAll (old new s : List Char) : List Char :=
  if old = [] then s else replaceAllScan old new s.length s

/-- The repository-name sanitization of the buildkite adapter:
`strings.ReplaceAll(repoName, ".", "-dot-")`. -/
def sanitizeRepoName (s : String) : String :=
  String.mk (goReplaceAll ['.'] "-dot-".data s.data)

/-- Expand each character of a list independently; the character-wise
specification against which the scanning `goReplaceAll` is proved. -/
def charExpand (f : Char → List Char) : List Char → List Char
  | [] => []
  | c :: rest => f c ++ charExpand f rest

/-- The character-wise effect claimed for sanitization: each literal `'.'`
becomes `-dot-`, every other character is unchanged. -/
def dotExpandChar (c : Char) : List Char :=
  if c = '.' then "-dot-".data else [c]

/-- Substring test on character lists (used to state that a serialized
payload contains no occurrence of a field name). -/
def containsSubstring (pat : List Char) : List Char → Bool
  | [] => pat.isEmpty
  | c :: rest => pat.isPrefixOf (c :: rest) || containsSubstring pat rest

/-! ### JSON serialization (model of `encoding/json.Marshal` on the two
payload struct types: fields in declaration order, `omitempty` honored,
strings escaped as `encoding/json` does with its default HTML escaping) -/

/-- Lower-case hex digit. -/
def hexDigit (n : Nat) : Char :=
  if n < 10 then Char.ofNat ('0'.toNat + n) else Char.ofNat ('a'.toNat + n - 10)

/-- Per-character JSON string escaping as performed by `encoding/json`
(default encoder: HTML-escapes `<`, `>`, `&`, escapes quotes, backslashes,
control characters and U+2028/U+2029). -/
def jsonEscapeChar (c : Char) : List Char :=
  if c = '"' then ['\\', '"']
  else if c = '\\' then ['\\', '\\']
  else if c = '\n' then ['\\', 'n']
  else if c = '\r' then ['\\', 'r']
  else if c = '\t' then ['\\', 't']
  else if c = '<' then "\\u003c".data
  else if c = '>' then "\\u003e".data
  else if c = '&' then "\\u0026".data
  else if c.toNat < 32 then "\\u00".data ++ [hexDigit (c.toNat / 16), hexDigit (c.toNat % 16)]
  else if c = '\u2028' then "\\u2028".data
  else if c = '\u2029' then "\\u2029".data
  else [c]

/-- JSON string literal for a Go string value. -/
def jsonString (s : String) : String :=
  "\"" ++ String.mk (charExpand jsonEscapeChar s.data) ++ "\""

/-- Decidable equality for `Except`, so pipeline stages can be evaluated on
concrete worlds. -/
instance {ε α : Type} [DecidableEq ε] [DecidableEq α] : DecidableEq (Except ε α) :=
  fun a b =>
    match a, b with
    | .error x, .error y =>
      if h : x = y then .isTrue (by rw [h])
      else .isFalse (fun hc => h (Except.error.inj hc))
    | .error _, .ok _ => .isFalse (fun hc => Except.noConfusion hc)
    | .ok _, .error _ => .isFalse (fun hc => Except.noConfusion hc)
    | .ok x, .ok y =>
      if h : x = y then .isTrue (by rw [h])
      else .isFalse (fun hc => h (Except.ok.inj hc))

/-! ### Data model (the struct types of `cmd/post-receive/main.go`) -/

/-- Nested `tekton` section of `CIConfig`. -/
structure TektonSection where
  pipeline : String
deriving DecidableEq

/-- `CIConfig` as decoded from `ci.cue`. -/
structure CIConfig where
  tekton : TektonSection
deriving DecidableEq

/-- The zero value `CIConfig\x7b\x7d` returned on any `readCIConfig` failure. -/
def zeroCIConfig : CIConfig := ⟨⟨""⟩⟩

/-- `Author` of the buildkite payload. -/
structure Author where
  name : String
  email : String
deriving DecidableEq

/-- `BuildkitePayload` — the REST adapter's request body. -/
structure BuildkitePayload where
  commit : String
  branch : String
  message : String
  author : Author
deriving DecidableEq

/-- `Response` — the decoded buildkite trigger acknowledgement. -/
structure Response where
  webURL : String
  state : String
deriving DecidableEq

/-- `TektonPayload` — the webhook adapter's request body. -/
structure TektonPayload where
  repo : String
  branch : String
  commit : String
  message : String
  author : String
  email : String
  tektonPipeline : String
deriving DecidableEq

/-- `TektonResponse` — the decoded tekton trigger acknowledgement. -/
structure TektonResponse where
  eventListenerUID : String
  eventID : String
deriving DecidableEq

/-- The commit metadata assembled in `run` (the locals `repoName`, `commit`,
`branch`, `message`, `author`, `email` captured by both adapter closures). -/
structure CommitMetadata where
  repoName : String
  commit : String
  branch : String
  message : String
  author : String
  email : String
deriving DecidableEq

/-- An outbound HTTP request as the hook builds it. -/
structure HttpRequest where
  method : String
  url : String
  headers : List (String × String)
  body : String
deriving DecidableEq

/-- An HTTP response as seen by the hook. -/
structure HttpResponse where
  status : Nat
  body : String
deriving DecidableEq

/-- Log level of the `slog` calls in the hook. -/
inductive LogLevel where
  | debug
  | info
  | warn
  | error
deriving DecidableEq

/-- A recorded `slog` event (level and message). -/
abbrev LogEvent := LogLevel × String

/-- Outcome of one adapter closure: a success summary, a returned error
(`("", err)` in Go), or the process-terminating `log.Fatalln` taken on a
non-2xx HTTP status. -/
inductive AdapterOutcome where
  | summary (s : String)
  | failure (e : String)
  | fatalStatus (status : Nat)
deriving DecidableEq

/-- Observable result of an adapter closure: its outcome plus the HTTP
requests it issued, the log events it emitted, and what it wrote to
standard output. -/
structure AdapterResult where
  outcome : AdapterOutcome
  requests : List HttpRequest
  logs : List LogEvent
  stdout : List String
deriving DecidableEq

/-- Termination mode of one invocation of the hook: `skipped` (gate
returned nil), `runError` (`run` returned an error which `main` merely
logs, so the process still exits 0), `fatal` (`log.Fatalln`, exit code 1),
or `report` carrying the two summary strings printed in the report. -/
inductive RunOutcome where
  | skipped
  | runError (msg : String)
  | fatal (msg : String)
  | report (buildkite tekton : String)
deriving DecidableEq

/-- Observable result of one invocation: outcome, issued HTTP requests,
log events, and standard-output lines. -/
structure RunResult where
  outcome : RunOutcome
  requests : List HttpRequest
  logs : List LogEvent
  stdout : List String
deriving DecidableEq

/-- The process exit code induced by a `RunOutcome`: `log.Fatalln` exits 1;
every other path (including `run` returning an error, which `main` only
logs) exits 0. -/
def exitCode (r : RunResult) : Nat :=
  match r.outcome with
  | .fatal _ => 1
  | _ => 0

/-- The external capabilities the hook consumes.  `env` models `os.Getenv`
(an unset variable reads as `""`); `cwd` models `os.Getwd`; `stdinLine`
models the `fmt.Scanln` of the three whitespace-separated input tokens;
`git` models `exec.Command("git", args...).CombinedOutput()`; `http` models
`http.DefaultClient.Do`; the three decoders model `json`/`cue` decoding of
externally produced response and config bytes. -/
structure World where
  env : String → String
  cwd : Except String String
  stdinLine : Except String (String × String × String)
  git : List String → Except String String
  http : HttpRequest → Except String HttpResponse
  decodeCue : String → Except String CIConfig
  decodeBK : String → Except String Response
  decodeTK : String → Except String TektonResponse

/-! ### Pipeline stages -/

/-- Push options parsed from `GIT_PUSH_OPTION_COUNT` and the numbered
`GIT_PUSH_OPTION_i` variables, each cut at the first `=`; the list keeps
insertion order, matching the Go map only up to key membership and
last-write-wins lookup (the hook only tests key membership). -/
def parsePushOptions (env : String → String) : List (String × String) :=
  (List.range (goParseInt64 (env "GIT_PUSH_OPTION_COUNT")).toNat).map
    (fun i => goCutEq (env ("GIT_PUSH_OPTION_" ++ toString i)))

/-- Key membership in the push-option map (`_, ok := pushOptions[k]`). -/
def hasOption (opts : List (String × String)) (k : String) : Bool :=
  opts.any (fun p => p.1 == k)

/-- Repository name derivation:
`strings.TrimSuffix(filepath.Base(dir), ".git")`. -/
def repoNameOf (dir : String) : String :=
  goTrimSuffix (goFilepathBase dir) ".git"

/-- The four `mustExecGit` metadata calls of `run`, in program order, each
trimming the combined output; the first failing call aborts the pipeline
via `log.Fatalln` (modelled as the error case).  Note the
message/author/email queries address `HEAD`, while the commit field is
`newRev` itself. -/
def gatherMetadata (git : List String → Except String String)
    (repoName newRev refName : String) : Except String CommitMetadata :=
  match git ["rev-parse", "--abbrev-ref", refName] with
  | .error e => .error e
  | .ok branch =>
    match git ["log", "-1", "HEAD", "--format=%B", "--"] with
    | .error e => .error e
    | .ok message =>
      match git ["log", "-1", "HEAD", "--format=%an", "--"] with
      | .error e => .error e
      | .ok author =>
        match git ["log", "-1", "HEAD", "--format=%ae", "--"] with
        | .error e => .error e
        | .ok email =>
          .ok
            { repoName := repoName
              commit := newRev
              branch := goTrimSpace branch
              message := goTrimSpace message
              author := goTrimSpace author
              email := goTrimSpace email }

/-- The metadata extraction as the specification words it: message, author
name and author email obtained from the Revision Reader queried for
`newRevisionID` (the pushed revision).  Stated only to be compared with
`gatherMetadata`, which is translated from the source and queries `HEAD`
for those three fields. -/
def specGatherMetadata (git : List String → Except String String)
    (repoName newRev refName : String) : Except String CommitMetadata :=
  match git ["rev-parse", "--abbrev-ref", refName] with
  | .error e => .error e
  | .ok branch =>
    match git ["log", "-1", newRev, "--format=%B", "--"] with
    | .error e => .error e
    | .ok message =>
      match git ["log", "-1", newRev, "--format=%an", "--"] with
      | .error e => .error e
      | .ok author =>
        match git ["log", "-1", newRev, "--format=%ae", "--"] with
        | .error e => .error e
        | .ok email =>
          .ok
            { repoName := repoName
              commit := newRev
              branch := goTrimSpace branch
              message := goTrimSpace message
              author := goTrimSpace author
              email := goTrimSpace email }

/-- `readCIConfig`: `git cat-file <rev>:ci.cue` then CUE decoding; each
failure is wrapped with the same context the Go code adds. -/
def readCIConfig (git : List String → Except String String)
    (decodeCue : String → Except String CIConfig) (rev : String) :
    Except String CIConfig :=
  match git ["cat-file", rev ++ ":" ++ "ci.cue"] with
  | .error e => .error ("git cat-file " ++ rev ++ ":ci.cue: " ++ e)
  | .ok b =>
    match decodeCue b with
    | .error e => .error ("cue decode ci.cue: " ++ e)
    | .ok cfg => .ok cfg

/-- The buildkite payload built from the captured metadata (no config
field). -/
def mkBuildkitePayload (md : CommitMetadata) : BuildkitePayload :=
  { commit := md.commit
    branch := md.branch
    message := md.message
    author := { name := md.author, email := md.email } }

/-- `json.Marshal` of `BuildkitePayload`: fields in declaration order. -/
def buildkitePayloadJSON (p : BuildkitePayload) : String :=
  "\x7b\"commit\":" ++ jsonString p.commit ++
  ",\"branch\":" ++ jsonString p.branch ++
  ",\"message\":" ++ jsonString p.message ++
  ",\"author\":\x7b\"name\":" ++ jsonString p.author.name ++
  ",\"email\":" ++ jsonString p.author.email ++ "\x7d\x7d"

/-- The tekton payload built from the captured metadata and config; note
the `repo` field is the UNsanitized repository name. -/
def mkTektonPayload (md : CommitMetadata) (cfg : CIConfig) : TektonPayload :=
  { repo := md.repoName
    branch := md.branch
    commit := md.commit
    message := md.message
    author := md.author
    email := md.email
    tektonPipeline := cfg.tekton.pipeline }

/-- `json.Marshal` of `TektonPayload`: fields in declaration order, with
`tektonPipeline` carrying `omitempty`. -/
def tektonPayloadJSON (p : TektonPayload) : String :=
  "\x7b\"repo\":" ++ jsonString p.repo ++
  ",\"branch\":" ++ jsonString p.branch ++
  ",\"commit\":" ++ jsonString p.commit ++
  ",\"message\":" ++ jsonString p.message ++
  ",\"author\":" ++ jsonString p.author ++
  ",\"email\":" ++ jsonString p.email ++
  (if p.tektonPipeline = "" then ""
   else ",\"tektonPipeline\":" ++ jsonString p.tektonPipeline) ++ "\x7d"

/-- The buildkite trigger request: POST to the REST endpoint addressed by
organization slug and sanitized repository name, with content-type and
bearer-token headers. -/
def buildkiteRequest (org token sanitizedRepo body : String) : HttpRequest :=
  { method := "POST"
    url := "https://api.buildkite.com/v2/organizations/" ++ org ++
      "/pipelines/" ++ sanitizedRepo ++ "/builds"
    headers := [("content-type", "application/json"),
                ("authorization", "Bearer " ++ token)]
    body := body }

/-- The tekton trigger request: unauthenticated POST to the configured
endpoint. -/
def tektonRequest (endpoint body : String) : HttpRequest :=
  { method := "POST"
    url := endpoint
    headers := [("content-type", "application/json")]
    body := body }

/-- The buildkite adapter closure of `run`: credential checks, payload
construction, HTTP POST, status check (non-2xx is `log.Fatalln`, modelled
as `fatalStatus`), response decoding, summary `"<state>:\t<webURL>"`. -/
def buildkiteAdapter (w : World) (md : CommitMetadata) : AdapterResult :=
  let org := w.env "BUILDKITE_ORG_SLUG"
  if org = "" then ⟨.failure "no BUILDKITE_ORG_SLUG found", [], [], []⟩
  else
    let token := w.env "BUILDKITE_API_TOKEN"
    if token = "" then ⟨.failure "no BUILDKITE_API_TOKEN found", [], [], []⟩
    else
      let body := buildkitePayloadJSON (mkBuildkitePayload md)
      let req := buildkiteRequest org token (sanitizeRepoName md.repoName) body
      match w.http req with
      | .error e =>
        ⟨.failure e, [req], [(.error, "failed to send request to buildkite")], []⟩
      | .ok res =>
        if res.status < 200 ∨ 299 < res.status then
          ⟨.fatalStatus res.status, [req], [], [res.body]⟩
        else
          match w.decodeBK res.body with
          | .error e => ⟨.failure e, [req], [(.error, "failed to read response")], []⟩
          | .ok r =>
            ⟨.summary (r.state ++ ":\t" ++ r.webURL), [req], [(.debug, "got response")], []⟩

/-- The tekton adapter closure of `run`: endpoint check, payload
construction, unauthenticated HTTP POST, status check (non-2xx is
`log.Fatalln`), response decoding, summary `"event-id:\t<eventID>"`. -/
def tektonAdapter (w : World) (md : CommitMetadata) (cfg : CIConfig) : AdapterResult :=
  let endpoint := w.env "TEKTON_TRIGGERS_ENDPOINT"
  if endpoint = "" then ⟨.failure "no TEKTON_TRIGGERS_ENDPOINT provided", [], [], []⟩
  else
    let body := tektonPayloadJSON (mkTektonPayload md cfg)
    let req := tektonRequest endpoint body
    match w.http req with
    | .error e =>
      ⟨.failure e, [req], [(.error, "failed to send request to tekton")], []⟩
    | .ok res =>
      if res.status < 200 ∨ 299 < res.status then
        ⟨.fatalStatus res.status, [req], [], [res.body]⟩
      else
        match w.decodeTK res.body with
        | .error e => ⟨.failure e, [req], [(.error, "failed to read response")], []⟩
        | .ok r => ⟨.summary ("event-id:\t" ++ r.eventID), [req], [(.debug, "got response")], []⟩

/-- The buildkite summary printed in the report: the success summary, or on
failure the error text (`buildkiteResponse = err.Error()` at line 170). -/
def bkSummaryOf : AdapterOutcome → String
  | .summary s => s
  | .failure e => e
  | .fatalStatus _ => ""

/-- The tekton summary printed in the report: the success summary, or on
failure the EMPTY string — the tekton error branch only logs the error and
never assigns `tektonResponse` (lines 222-224). -/
def tkSummaryOf : AdapterOutcome → String
  | .summary s => s
  | _ => ""

/-- The `send to buildkite` error log emitted when the buildkite closure
returned an error. -/
def bkFailLog : AdapterOutcome → List LogEvent
  | .failure _ => [(.error, "send to buildkite")]
  | _ => []

/-- The `send to tekton` error log emitted when the tekton closure returned
an error. -/
def tkFailLog : AdapterOutcome → List LogEvent
  | .failure _ => [(.error, "send to tekton")]
  | _ => []

/-- The report block written to standard output: a blank line, one labeled
line per adapter in configuration order (buildkite then tekton), and a
closing blank line. -/
def reportLines (bk tk : String) : List String :=
  ["", "\tbuildkite: " ++ bk, "\ttekton: " ++ tk, ""]

/-- The dispatch-and-report tail of `run`: the buildkite closure, then the
tekton closure, then the report block.  A `fatalStatus` outcome from either
closure terminates the whole process (`log.Fatalln`), reproducing the
observed non-2xx behavior. -/
def dispatchAndReport (w : World) (md : CommitMetadata) (cfg : CIConfig) : RunResult :=
  let bk := buildkiteAdapter w md
  match bk.outcome with
  | .fatalStatus st =>
    ⟨.fatal ("unexpected response from buildkite " ++ toString st),
      bk.requests, bk.logs, bk.stdout⟩
  | _ =>
    let tk := tektonAdapter w md cfg
    match tk.outcome with
    | .fatalStatus st =>
      ⟨.fatal ("unexpected response from tekton " ++ toString st),
        bk.requests ++ tk.requests, bk.logs ++ bkFailLog bk.outcome ++ tk.logs, tk.stdout⟩
    | _ =>
      ⟨.report (bkSummaryOf bk.outcome) (tkSummaryOf tk.outcome),
        bk.requests ++ tk.requests,
        bk.logs ++ bkFailLog bk.outcome ++ tk.logs ++ tkFailLog tk.outcome,
        reportLines (bkSummaryOf bk.outcome) (tkSummaryOf tk.outcome)⟩

/-- The `run` function of the hook: push-option gate, working directory and
repository name, the single input line, metadata extraction (fatal on
failure), revision-pinned config (soft failure with a warning), then
dispatch and report. -/
def run (w : World) : RunResult :=
  if hasOption (parsePushOptions w.env) "ci.skip" then
    ⟨.skipped, [], [(.info, "skipping ci")], []⟩
  else
    match w.cwd with
    | .error e =>
      ⟨.runError e, [], [(.error, "failed to get working directory")], []⟩
    | .ok dir =>
      match w.stdinLine with
      | .error e =>
        ⟨.runError e, [], [(.error, "failed to scan post-receive input")], []⟩
      | .ok (_, newRev, refName) =>
        match gatherMetadata w.git (repoNameOf dir) newRev refName with
        | .error e => ⟨.fatal ("run git " ++ e), [], [], []⟩
        | .ok md =>
          match readCIConfig w.git w.decodeCue newRev with
          | .error _ =>
            let r := dispatchAndReport w md zeroCIConfig
            ⟨r.outcome, r.requests, (.warn, "failed to get ci.cue") :: r.logs, r.stdout⟩
          | .ok cfg => dispatchAndReport w md cfg

/-! ### Concrete fixtures and worlds used to evaluate the pipeline -/

/-- The commit fixture of the specification: commit `abc123`, branch
`main`, message `fix bug`, author `Jane Doe <jane@example.com>`. -/
def fixtureC9 : CommitMetadata :=
  ⟨"repo", "abc123", "main", "fix bug", "Jane Doe", "jane@example.com"⟩

/-- Environment with buildkite credentials present and nothing else. -/
def envC1 : String → String := fun k =>
  if k = "BUILDKITE_ORG_SLUG" then "myorg"
  else if k = "BUILDKITE_API_TOKEN" then "tok123"
  else ""

/-- World in which buildkite answers HTTP 500 to the trigger request. -/
def wC1 : World :=
  { env := envC1
    cwd := .ok "/srv/git/proj.git"
    stdinLine := .ok ("oldrev", "newrev", "refs/heads/main")
    git := fun _ => .ok "x"
    http := fun _ => .ok ⟨500, "server error"⟩
    decodeCue := fun _ => .ok zeroCIConfig
    decodeBK := fun _ => .error "unused"
    decodeTK := fun _ => .error "unused" }

/-- The metadata `run` computes in `wC1`. -/
def mdC1 : CommitMetadata := ⟨"proj", "newrev", "x", "x", "x", "x"⟩

/-- Environment with only the tekton endpoint configured. -/
def envC2 : String → String := fun k =>
  if k = "TEKTON_TRIGGERS_ENDPOINT" then "http://tekton.local/el" else ""

/-- World in which metadata extraction succeeds and tekton answers
HTTP 503. -/
def wC2 : World :=
  { env := envC2
    cwd := .ok "/srv/git/proj.git"
    stdinLine := .ok ("oldrev", "newrev", "refs/heads/main")
    git := fun _ => .ok "x"
    http := fun _ => .ok ⟨503, "unavailable"⟩
    decodeCue := fun _ => .ok zeroCIConfig
    decodeBK := fun _ => .error "unused"
    decodeTK := fun _ => .error "unused" }

/-- The metadata `run` computes in `wC2`. -/
def mdC2 : CommitMetadata := ⟨"proj", "newrev", "x", "x", "x", "x"⟩

/-- A git oracle that answers differently at `HEAD` and at the pushed
revision `newrev`, to separate the source's metadata extraction from the
specification's. -/
def gC3 : List String → Except String String := fun args =>
  if args = ["log", "-1", "HEAD", "--format=%B", "--"] then .ok "message from HEAD"
  else if args = ["log", "-1", "HEAD", "--format=%an", "--"] then .ok "author from HEAD"
  else if args = ["log", "-1", "HEAD", "--format=%ae", "--"] then .ok "email from HEAD"
  else if args = ["rev-parse", "--abbrev-ref", "refs/heads/feature"] then .ok "feature"
  else .ok "value for newrev"

/-- A git oracle answering `out` to every query. -/
def gC3w : List String → Except String String := fun _ => .ok "out"

/-- The metadata `gatherMetadata` computes under `gC3w`. -/
def mdC3w : CommitMetadata := ⟨"proj", "newrev", "out", "out", "out", "out"⟩

/-- Environment with neither adapter configured. -/
def envC4 : String → String := fun _ => ""

/-- World in which both adapters fail on missing configuration. -/
def wC4 : World :=
  { env := envC4
    cwd := .ok "/srv/git/proj.git"
    stdinLine := .ok ("oldrev", "newrev", "refs/heads/main")
    git := fun _ => .ok "x"
    http := fun _ => .error "transport down"
    decodeCue := fun _ => .ok zeroCIConfig
    decodeBK := fun _ => .error "unused"
    decodeTK := fun _ => .error "unused" }

/-- The metadata `run` computes in `wC4`. -/
def mdC4 : CommitMetadata := ⟨"proj", "newrev", "x", "x", "x", "x"⟩

/-- Environment carrying exactly the `ci.skip` push option. -/
def envC5 : String → String := fun k =>
  if k = "GIT_PUSH_OPTION_COUNT" then "1"
  else if k = "GIT_PUSH_OPTION_0" then "ci.skip" else ""

/-- World for a skipped push. -/
def wC5 : World :=
  { env := envC5
    cwd := .ok "/srv/git/proj.git"
    stdinLine := .ok ("oldrev", "newrev", "refs/heads/main")
    git := fun _ => .ok "x"
    http := fun _ => .error "transport down"
    decodeCue := fun _ => .ok zeroCIConfig
    decodeBK := fun _ => .error "unused"
    decodeTK := fun _ => .error "unused" }

/-- Environment with the tekton endpoint configured but no buildkite
credentials. -/
def envC6 : String → String := fun k =>
  if k = "TEKTON_TRIGGERS_ENDPOINT" then "http://tekton.local/el" else ""

/-- World in which buildkite credentials are absent while tekton is fully
operational. -/
def wC6 : World :=
  { env := envC6
    cwd := .ok "/srv/git/proj.git"
    stdinLine := .ok ("oldrev", "newrev", "refs/heads/main")
    git := fun _ => .ok "x"
    http := fun _ => .ok ⟨201, "resp"⟩
    decodeCue := fun _ => .ok zeroCIConfig
    decodeBK := fun _ => .error "unused"
    decodeTK := fun _ => .ok ⟨"uid1", "event1"⟩ }

/-- The metadata `run` computes in `wC6`. -/
def mdC6 : CommitMetadata := ⟨"proj", "newrev", "x", "x", "x", "x"⟩

/-- A git oracle for which `ci.cue` is absent at the pushed revision. -/
def gitC7 : List String → Except String String := fun args =>
  if args = ["cat-file", "newrev:ci.cue"] then .error "fatal: not a valid object name"
  else .ok "x"

/-- World whose repository has no `ci.cue` at the pushed revision. -/
def wC7 : World :=
  { env := fun _ => ""
    cwd := .ok "/srv/git/proj.git"
    stdinLine := .ok ("oldrev", "newrev", "refs/heads/main")
    git := gitC7
    http := fun _ => .error "transport down"
    decodeCue := fun _ => .ok zeroCIConfig
    decodeBK := fun _ => .error "unused"
    decodeTK := fun _ => .error "unused" }

/-- The metadata `run` computes in `wC7`. -/
def mdC7 : CommitMetadata := ⟨"proj", "newrev", "x", "x", "x", "x"⟩

/-- A git oracle whose `ci.cue` bytes exist but fail to decode. -/
def gitC7b : List String → Except String String := fun _ => .ok "not valid cue"

/-- A CUE decoder that rejects its input. -/
def decC7b : String → Except String CIConfig := fun _ => .error "expected struct"

/-- Environment with both adapters fully configured. -/
def envC10 : String → String := fun k =>
  if k = "BUILDKITE_ORG_SLUG" then "myorg"
  else if k = "BUILDKITE_API_TOKEN" then "tok123"
  else if k = "TEKTON_TRIGGERS_ENDPOINT" then "http://tekton.local/el"
  else ""

/-- The metadata of a repository whose directory is `my.repo.git`: the
repository name keeps its dots. -/
def mdC10 : CommitMetadata := ⟨"my.repo", "newrev", "main", "msg", "Jane", "jane@example.com"⟩

/-- World with a dotted repository name and both adapters responding. -/
def wC10 : World :=
  { env := envC10
    cwd := .ok "/srv/git/my.repo.git"
    stdinLine := .ok ("oldrev", "newrev", "refs/heads/main")
    git := fun _ => .ok "x"
    http := fun _ => .ok ⟨200, "resp"⟩
    decodeCue := fun _ => .ok zeroCIConfig
    decodeBK := fun _ => .ok ⟨"https://bk/url", "scheduled"⟩
    decodeTK := fun _ => .ok ⟨"uid", "e1"⟩ }

/-- The tekton request issued in `wC10` at metadata `mdC10`. -/
def reqT10 : HttpRequest :=
  tektonRequest "http://tekton.local/el" (tektonPayloadJSON (mkTektonPayload mdC10 zeroCIConfig))

/-- The buildkite request issued in `wC10` at metadata `mdC10`. -/
def reqB10 : HttpRequest :=
  buildkiteRequest "myorg" "tok123" (sanitizeRepoName "my.repo")
    (buildkitePayloadJSON (mkBuildkitePayload mdC10))

/-! ### Helper lemmas -/

/-- The scanning replacement with the single-character pattern `.` agrees
with the character-wise expansion, for any sufficient fuel. -/
theorem replaceAllScan_dot (fuel : Nat) :
    ∀ s : List Char, s.length ≤ fuel →
      replaceAllScan ['.'] "-dot-".data fuel s = charExpand dotExpandChar s := by
  induction fuel with
  | zero =>
    intro s hs
    have hnil : s = [] := List.eq_nil_of_length_eq_zero (Nat.le_zero.mp hs)
    subst hnil
    rfl
  | succ n ih =>
    intro s hs
    match s with
    | [] => rfl
    | c :: rest =>
      have hlen : rest.length ≤ n := by
        simpa using Nat.succ_le_succ_iff.mp (by simpa using hs)
      by_cases hc : c = '.'
      · subst hc
        have hpre : (['.'] : List Char).isPrefixOf ('.' :: rest) = true := by
          simp [List.isPrefixOf]
        simp [replaceAllScan, hpre, charExpand, dotExpandChar, ih rest hlen]
      · have hpre : (['.'] : List Char).isPrefixOf (c :: rest) = false := by
          simp [List.isPrefixOf]
          exact fun h => hc h.symm
        simp [replaceAllScan, hpre, charExpand, dotExpandChar, hc, ih rest hlen]

/-- Sanitization equals the character-wise expansion: each `.` becomes
`-dot-` and every other character is unchanged. -/
theorem sanitizeRepoName_charExpand (s : String) :
    sanitizeRepoName s = String.mk (charExpand dotExpandChar s.data) := by
  unfold sanitizeRepoName goReplaceAll
  rw [if_neg (by simp)]
  rw [replaceAllScan_dot s.data.length s.data (Nat.le_refl _)]

/-- The character-wise expansion never produces a dot. -/
theorem charExpand_dot_no_dot (s : List Char) : '.' ∉ charExpand dotExpandChar s := by
  induction s with
  | nil => simp [charExpand]
  | cons c rest ih =>
    intro hmem
    rcases List.mem_append.mp hmem with h | h
    · by_cases hc : c = '.'
      · subst hc
        simp [dotExpandChar] at h
      · simp [dotExpandChar, hc] at h
        exact hc h.symm
    · exact ih h

/-- On dot-free input the character-wise expansion is the identity. -/
theorem charExpand_dot_id (s : List Char) (h : ∀ c ∈ s, c ≠ '.') :
    charExpand dotExpandChar s = s := by
  induction s with
  | nil => rfl
  | cons c rest ih =>
    have hc : c ≠ '.' := h c (by simp)
    simp [charExpand, dotExpandChar, hc, ih (fun d hd => h d (by simp [hd]))]

/-- Sanitization is idempotent. -/
theorem sanitizeRepoName_idem (s : String) :
    sanitizeRepoName (sanitizeRepoName s) = sanitizeRepoName s := by
  rw [sanitizeRepoName_charExpand s,
    sanitizeRepoName_charExpand (String.mk (charExpand dotExpandChar s.data))]
  show String.mk (charExpand dotExpandChar (charExpand dotExpandChar s.data)) = _
  congr 1
  exact charExpand_dot_id _ (fun c hc hdot => charExpand_dot_no_dot s.data (hdot ▸ hc))

/-! ### Claim theorems -/

/-- C8: repository-name sanitization is total and idempotent: it replaces
every literal `.` with `-dot-` and changes no other character (the
character-wise expansion), applying it twice equals applying it once, and
`my.repo.name` maps to `my-dot-repo-dot-name`. -/
theorem sanitize_total_idempotent :
    (∀ s : String, sanitizeRepoName s = String.mk (charExpand dotExpandChar s.data)) ∧
    (∀ s : String, sanitizeRepoName (sanitizeRepoName s) = sanitizeRepoName s) ∧
    sanitizeRepoName "my.repo.name" = "my-dot-repo-dot-name" :=
  ⟨sanitizeRepoName_charExpand, sanitizeRepoName_idem, by decide⟩

/-- C9: on the fixture commit (commit `abc123`, branch `main`, message
`fix bug`, author `Jane Doe <jane@example.com>`) the REST adapter payload
serializes to exactly the specified JSON object, and the serialization
contains no config-override (`tektonPipeline`) field. -/
theorem buildkite_payload_fixture :
    buildkitePayloadJSON (mkBuildkitePayload fixtureC9) =
      "\x7b\"commit\":\"abc123\",\"branch\":\"main\",\"message\":\"fix bug\",\"author\":\x7b\"name\":\"Jane Doe\",\"email\":\"jane@example.com\"\x7d\x7d" ∧
    containsSubstring "tektonPipeline".data
      (buildkitePayloadJSON (mkBuildkitePayload fixtureC9)).data = false := by
  constructor
  · decide
  · decide

/-- C5: whenever the parsed push options contain the `ci.skip` key, `run`
returns successfully with no HTTP request issued, logging that CI was
skipped, and the process exit code is 0. -/
theorem skip_gate (w : World)
    (h : hasOption (parsePushOptions w.env) "ci.skip" = true) :
    run w = ⟨.skipped, [], [(.info, "skipping ci")], []⟩ ∧
    (run w).requests = [] ∧ exitCode (run w) = 0 := by
  have hr : run w = ⟨.skipped, [], [(.info, "skipping ci")], []⟩ := by
    unfold run
    rw [if_pos h]
  exact ⟨hr, by rw [hr], by rw [hr]; rfl⟩

/-- Witness for `skip_gate` at a concrete environment carrying exactly the
`ci.skip` push option. -/
theorem skip_gate_witness :
    hasOption (parsePushOptions wC5.env) "ci.skip" = true ∧
    (run wC5 = ⟨.skipped, [], [(.info, "skipping ci")], []⟩ ∧
      (run wC5).requests = [] ∧ exitCode (run wC5) = 0) :=
  ⟨by decide, skip_gate wC5 (by decide)⟩

/-- C1: on a non-2xx buildkite response the adapter does NOT contain the
failure in its own result — the observed code path calls `log.Fatalln`,
terminating the whole process with exit code 1 (the `fatalStatus` outcome
of the embedded adapter). -/
theorem buildkite_non2xx_kills_process :
    (buildkiteAdapter wC1 mdC1).outcome = .fatalStatus 500 ∧
    (run wC1).outcome = .fatal "unexpected response from buildkite 500" ∧
    exitCode (run wC1) = 1 := by
  refine ⟨by decide, by decide, by decide⟩

/-- C2: in `wC2` metadata extraction succeeds, yet the process exits
non-zero because the tekton backend answered HTTP 503 and the hook calls
`log.Fatalln` on a non-2xx status — contradicting "non-zero only when
metadata extraction fails". -/
theorem exit_nonzero_despite_metadata_success :
    gatherMetadata wC2.git (repoNameOf "/srv/git/proj.git") "newrev" "refs/heads/main" =
      .ok mdC2 ∧
    (run wC2).outcome = .fatal "unexpected response from tekton 503" ∧
    exitCode (run wC2) = 1 := by
  refine ⟨by decide, by decide, by decide⟩

/-- C3 counterexample: a git oracle answering differently at `HEAD` and at
the pushed revision separates the source's metadata extraction (which
queries `HEAD` for message/author/email) from the specification's (which
queries `newRevisionID`). -/
theorem metadata_head_query_counterexample :
    gatherMetadata gC3 "proj" "newrev" "refs/heads/feature" ≠
      specGatherMetadata gC3 "proj" "newrev" "refs/heads/feature" ∧
    (gatherMetadata gC3 "proj" "newrev" "refs/heads/feature").toOption.map
      CommitMetadata.message = some "message from HEAD" ∧
    (specGatherMetadata gC3 "proj" "newrev" "refs/heads/feature").toOption.map
      CommitMetadata.message = some "value for newrev" := by
  refine ⟨by decide, by decide, by decide⟩

/-- C3 amended: `commitID` equals `newRevisionID` and the branch comes from
resolving `refName`, but message, author name and author email are read
from the Revision Reader queried for `HEAD`, not for `newRevisionID`. -/
theorem metadata_commit_newrev_fields_head
    (git : List String → Except String String) (repoName newRev refName : String)
    (md : CommitMetadata) (h : gatherMetadata git repoName newRev refName = .ok md) :
    md.repoName = repoName ∧ md.commit = newRev ∧
    (∃ b, git ["rev-parse", "--abbrev-ref", refName] = .ok b ∧ md.branch = goTrimSpace b) ∧
    (∃ m, git ["log", "-1", "HEAD", "--format=%B", "--"] = .ok m ∧ md.message = goTrimSpace m) ∧
    (∃ a, git ["log", "-1", "HEAD", "--format=%an", "--"] = .ok a ∧ md.author = goTrimSpace a) ∧
    (∃ e, git ["log", "-1", "HEAD", "--format=%ae", "--"] = .ok e ∧ md.email = goTrimSpace e) := by
  unfold gatherMetadata at h
  rcases h1 : git ["rev-parse", "--abbrev-ref", refName] with e1 | branch <;> rw [h1] at h
  · exact Except.noConfusion h
  rcases h2 : git ["log", "-1", "HEAD", "--format=%B", "--"] with e2 | message <;> rw [h2] at h
  · exact Except.noConfusion h
  rcases h3 : git ["log", "-1", "HEAD", "--format=%an", "--"] with e3 | author <;> rw [h3] at h
  · exact Except.noConfusion h
  rcases h4 : git ["log", "-1", "HEAD", "--format=%ae", "--"] with e4 | email <;> rw [h4] at h
  · exact Except.noConfusion h
  have h5 : (⟨repoName, newRev, goTrimSpace branch, goTrimSpace message,
      goTrimSpace author, goTrimSpace email⟩ : CommitMetadata) = md := Except.ok.inj h
  subst h5
  exact ⟨rfl, rfl, ⟨branch, rfl, rfl⟩, ⟨message, rfl, rfl⟩, ⟨author, rfl, rfl⟩,
    ⟨email, rfl, rfl⟩⟩

/-- Witness for `metadata_commit_newrev_fields_head` at a concrete oracle. -/
theorem metadata_commit_newrev_fields_head_witness :
    gatherMetadata gC3w "proj" "newrev" "refs/heads/main" = .ok mdC3w ∧
    (mdC3w.repoName = "proj" ∧ mdC3w.commit = "newrev" ∧
      (∃ b, gC3w ["rev-parse", "--abbrev-ref", "refs/heads/main"] = .ok b ∧
        mdC3w.branch = goTrimSpace b) ∧
      (∃ m, gC3w ["log", "-1", "HEAD", "--format=%B", "--"] = .ok m ∧
        mdC3w.message = goTrimSpace m) ∧
      (∃ a, gC3w ["log", "-1", "HEAD", "--format=%an", "--"] = .ok a ∧
        mdC3w.author = goTrimSpace a) ∧
      (∃ e, gC3w ["log", "-1", "HEAD", "--format=%ae", "--"] = .ok e ∧
        mdC3w.email = goTrimSpace e)) :=
  ⟨by decide,
    metadata_commit_newrev_fields_head gC3w "proj" "newrev" "refs/heads/main" mdC3w (by decide)⟩

/-- Every run whose outcome is a report went through `dispatchAndReport`
with the metadata and config the pipeline computed. -/
theorem run_report_via_dispatch (w : World) :
    (∀ b t, (run w).outcome ≠ .report b t) ∨
    ∃ md cfg, (run w).outcome = (dispatchAndReport w md cfg).outcome ∧
      (run w).stdout = (dispatchAndReport w md cfg).stdout := by
  by_cases hskip : hasOption (parsePushOptions w.env) "ci.skip" = true
  · left
    intro b t hbt
    simp [run, hskip] at hbt
  · have hskip2 : hasOption (parsePushOptions w.env) "ci.skip" = false := by
      cases hval : hasOption (parsePushOptions w.env) "ci.skip"
      · rfl
      · exact absurd hval hskip
    rcases hcwd : w.cwd with e | dir
    · left
      intro b t hbt
      simp [run, hskip2, hcwd] at hbt
    · rcases hstdin : w.stdinLine with e | trip
      · left
        intro b t hbt
        simp [run, hskip2, hcwd, hstdin] at hbt
      · obtain ⟨o, n, r⟩ := trip
        rcases hmd : gatherMetadata w.git (repoNameOf dir) n r with e | md
        · left
          intro b t hbt
          simp [run, hskip2, hcwd, hstdin, hmd] at hbt
        · rcases hcfg : readCIConfig w.git w.decodeCue n with e | cfg
          · exact Or.inr ⟨md, zeroCIConfig,
              by simp [run, hskip2, hcwd, hstdin, hmd, hcfg],
              by simp [run, hskip2, hcwd, hstdin, hmd, hcfg]⟩
          · exact Or.inr ⟨md, cfg,
              by simp [run, hskip2, hcwd, hstdin, hmd, hcfg],
              by simp [run, hskip2, hcwd, hstdin, hmd, hcfg]⟩

/-- A report outcome of `dispatchAndReport` fixes the stdout block and ties
each printed summary to its adapter's outcome. -/
theorem dispatch_report_characterization (w : World) (md : CommitMetadata)
    (cfg : CIConfig) (b t : String)
    (h : (dispatchAndReport w md cfg).outcome = .report b t) :
    (dispatchAndReport w md cfg).stdout = reportLines b t ∧
    b = bkSummaryOf (buildkiteAdapter w md).outcome ∧
    t = tkSummaryOf (tektonAdapter w md cfg).outcome := by
  rcases hbk : (buildkiteAdapter w md).outcome with s | e | st <;>
    rcases htk : (tektonAdapter w md cfg).outcome with s2 | e2 | st2 <;>
      simp_all [dispatchAndReport, bkSummaryOf, tkSummaryOf]

/-- C4 amended: every run reaching the report writes exactly the
four-line block (blank line, one buildkite line, one tekton line, blank
line, in configuration order); the buildkite summary is its success string
or its error text, while the tekton summary is its success string or the
EMPTY string when the tekton adapter failed (its error is only logged). -/
theorem report_line_per_adapter :
    (∀ w b t, (run w).outcome = .report b t → (run w).stdout = reportLines b t) ∧
    (∀ w md cfg b t, (dispatchAndReport w md cfg).outcome = .report b t →
      ((∃ s, (buildkiteAdapter w md).outcome = .summary s ∧ b = s) ∨
        (∃ e, (buildkiteAdapter w md).outcome = .failure e ∧ b = e)) ∧
      ((∃ s, (tektonAdapter w md cfg).outcome = .summary s ∧ t = s) ∨
        (∃ e, (tektonAdapter w md cfg).outcome = .failure e ∧ t = ""))) := by
  constructor
  · intro w b t h
    rcases run_report_via_dispatch w with hno | ⟨md, cfg, ho, hs⟩
    · exact absurd h (hno b t)
    · rw [hs]
      exact (dispatch_report_characterization w md cfg b t (ho.symm.trans h)).1
  · intro w md cfg b t h
    obtain ⟨hst, hb, ht⟩ := dispatch_report_characterization w md cfg b t h
    constructor
    · rcases hbk : (buildkiteAdapter w md).outcome with s | e | st
      · exact Or.inl ⟨s, rfl, by rw [hb, hbk]; rfl⟩
      · exact Or.inr ⟨e, rfl, by rw [hb, hbk]; rfl⟩
      · simp [dispatchAndReport, hbk] at h
    · rcases htk : (tektonAdapter w md cfg).outcome with s | e | st
      · exact Or.inl ⟨s, rfl, by rw [ht, htk]; rfl⟩
      · exact Or.inr ⟨e, rfl, by rw [ht, htk]; rfl⟩
      · rcases hbk : (buildkiteAdapter w md).outcome with s2 | e2 | st2 <;>
          simp [dispatchAndReport, hbk, htk] at h

/-- Witness for `report_line_per_adapter` at a concrete world in which both
adapters fail on missing configuration. -/
theorem report_line_per_adapter_witness :
    ((run wC4).outcome = .report "no BUILDKITE_ORG_SLUG found" "" ∧
      (run wC4).stdout = reportLines "no BUILDKITE_ORG_SLUG found" "") ∧
    ((dispatchAndReport wC4 mdC4 zeroCIConfig).outcome =
        .report "no BUILDKITE_ORG_SLUG found" "" ∧
      (((∃ s, (buildkiteAdapter wC4 mdC4).outcome = .summary s ∧
            "no BUILDKITE_ORG_SLUG found" = s) ∨
        (∃ e, (buildkiteAdapter wC4 mdC4).outcome = .failure e ∧
            "no BUILDKITE_ORG_SLUG found" = e)) ∧
        ((∃ s, (tektonAdapter wC4 mdC4 zeroCIConfig).outcome = .summary s ∧ "" = s) ∨
          (∃ e, (tektonAdapter wC4 mdC4 zeroCIConfig).outcome = .failure e ∧
            ("" : String) = "")))) :=
  ⟨⟨by decide, report_line_per_adapter.1 wC4 "no BUILDKITE_ORG_SLUG found" "" (by decide)⟩,
    ⟨by decide,
      report_line_per_adapter.2 wC4 mdC4 zeroCIConfig "no BUILDKITE_ORG_SLUG found" "" (by decide)⟩⟩

/-- C4 counterexample: when the tekton adapter fails (endpoint unset) the
printed tekton line carries an EMPTY summary, not a description of the
adapter's error — the error string exists but is never assigned to the
printed summary. -/
theorem tekton_error_summary_counterexample :
    (gatherMetadata wC4.git (repoNameOf "/srv/git/proj.git") "newrev"
      "refs/heads/main").toOption = some mdC4 ∧
    (run wC4).outcome = .report "no BUILDKITE_ORG_SLUG found" "" ∧
    (run wC4).stdout = ["", "\tbuildkite: no BUILDKITE_ORG_SLUG found", "\ttekton: ", ""] ∧
    (tektonAdapter wC4 mdC4 zeroCIConfig).outcome =
      .failure "no TEKTON_TRIGGERS_ENDPOINT provided" ∧
    tkSummaryOf (tektonAdapter wC4 mdC4 zeroCIConfig).outcome = "" ∧
    ("" : String) ≠ "no TEKTON_TRIGGERS_ENDPOINT provided" := by
  refine ⟨by decide, by decide, by decide, by decide, by decide, by decide⟩

/-- C6: a missing credential makes its own adapter fail with no network
call while the dispatcher's request set is exactly the other adapter's —
neither adapter's credential absence prevents the other's attempt. -/
theorem missing_credentials_isolated (w : World) (md : CommitMetadata) (cfg : CIConfig) :
    ((w.env "BUILDKITE_ORG_SLUG" = "" ∨ w.env "BUILDKITE_API_TOKEN" = "") →
      (∃ e, (buildkiteAdapter w md).outcome = .failure e) ∧
      (buildkiteAdapter w md).requests = [] ∧
      (dispatchAndReport w md cfg).requests = (tektonAdapter w md cfg).requests) ∧
    (w.env "TEKTON_TRIGGERS_ENDPOINT" = "" →
      (tektonAdapter w md cfg).outcome = .failure "no TEKTON_TRIGGERS_ENDPOINT provided" ∧
      (tektonAdapter w md cfg).requests = [] ∧
      (dispatchAndReport w md cfg).requests = (buildkiteAdapter w md).requests) := by
  constructor
  · intro h
    have hbk : ∃ e, buildkiteAdapter w md = ⟨.failure e, [], [], []⟩ := by
      by_cases horg : w.env "BUILDKITE_ORG_SLUG" = ""
      · exact ⟨"no BUILDKITE_ORG_SLUG found", by simp [buildkiteAdapter, horg]⟩
      · have htok : w.env "BUILDKITE_API_TOKEN" = "" := by
          rcases h with h | h
          · exact absurd h horg
          · exact h
        exact ⟨"no BUILDKITE_API_TOKEN found", by simp [buildkiteAdapter, horg, htok]⟩
    obtain ⟨e, hbk⟩ := hbk
    refine ⟨⟨e, by rw [hbk]⟩, by rw [hbk], ?_⟩
    rcases htk : (tektonAdapter w md cfg).outcome with s | e2 | st <;>
      simp [dispatchAndReport, hbk, htk]
  · intro h
    have htk : tektonAdapter w md cfg =
        ⟨.failure "no TEKTON_TRIGGERS_ENDPOINT provided", [], [], []⟩ := by
      simp [tektonAdapter, h]
    refine ⟨by rw [htk], by rw [htk], ?_⟩
    rcases hbk : (buildkiteAdapter w md).outcome with s | e2 | st <;>
      simp [dispatchAndReport, hbk, htk]

/-- Witness for `missing_credentials_isolated`: buildkite credentials
absent, tekton fully operational — the tekton request is still issued. -/
theorem missing_credentials_isolated_witness :
    (wC6.env "BUILDKITE_ORG_SLUG" = "" ∧
      ((∃ e, (buildkiteAdapter wC6 mdC6).outcome = .failure e) ∧
        (buildkiteAdapter wC6 mdC6).requests = [] ∧
        (dispatchAndReport wC6 mdC6 zeroCIConfig).requests =
          (tektonAdapter wC6 mdC6 zeroCIConfig).requests)) ∧
    (tektonAdapter wC6 mdC6 zeroCIConfig).requests =
      [tektonRequest "http://tekton.local/el"
        (tektonPayloadJSON (mkTektonPayload mdC6 zeroCIConfig))] :=
  ⟨⟨by decide, (missing_credentials_isolated wC6 mdC6 zeroCIConfig).1 (Or.inl (by decide))⟩,
    by decide⟩

/-- C7: a missing config file or a config decode failure makes
`readCIConfig` return an error; `run` then continues with the zero-value
`CIConfig`, logs a warning, and still dispatches — the result is exactly
the dispatch result with the warning prepended, never an abort. -/
theorem config_failure_soft :
    (∀ (git : List String → Except String String)
      (dec : String → Except String CIConfig) (rev e : String),
      git ["cat-file", rev ++ ":" ++ "ci.cue"] = .error e →
        readCIConfig git dec rev = .error ("git cat-file " ++ rev ++ ":ci.cue: " ++ e)) ∧
    (∀ (git : List String → Except String String)
      (dec : String → Except String CIConfig) (rev b e : String),
      git ["cat-file", rev ++ ":" ++ "ci.cue"] = .ok b → dec b = .error e →
        readCIConfig git dec rev = .error ("cue decode ci.cue: " ++ e)) ∧
    (∀ (w : World) (dir newRev refName oldRev : String) (md : CommitMetadata) (e : String),
      hasOption (parsePushOptions w.env) "ci.skip" = false →
      w.cwd = .ok dir →
      w.stdinLine = .ok (oldRev, newRev, refName) →
      gatherMetadata w.git (repoNameOf dir) newRev refName = .ok md →
      readCIConfig w.git w.decodeCue newRev = .error e →
        run w = ⟨(dispatchAndReport w md zeroCIConfig).outcome,
          (dispatchAndReport w md zeroCIConfig).requests,
          (.warn, "failed to get ci.cue") :: (dispatchAndReport w md zeroCIConfig).logs,
          (dispatchAndReport w md zeroCIConfig).stdout⟩) := by
  refine ⟨?_, ?_, ?_⟩
  · intro git dec rev e h
    unfold readCIConfig
    rw [h]
  · intro git dec rev b e h1 h2
    simp [readCIConfig, h1, h2]
  · intro w dir newRev refName oldRev md e h1 h2 h3 h4 h5
    simp [run, h1, h2, h3, h4, h5]

/-- Witness for `config_failure_soft`: a repository without `ci.cue`, one
with undecodable `ci.cue`, and a full run over the former. -/
theorem config_failure_soft_witness :
    (gitC7 ["cat-file", "newrev:ci.cue"] = .error "fatal: not a valid object name" ∧
      readCIConfig gitC7 wC7.decodeCue "newrev" =
        .error "git cat-file newrev:ci.cue: fatal: not a valid object name") ∧
    (gitC7b ["cat-file", "newrev:ci.cue"] = .ok "not valid cue" ∧
      decC7b "not valid cue" = .error "expected struct" ∧
      readCIConfig gitC7b decC7b "newrev" = .error "cue decode ci.cue: expected struct") ∧
    (hasOption (parsePushOptions wC7.env) "ci.skip" = false ∧
      run wC7 = ⟨(dispatchAndReport wC7 mdC7 zeroCIConfig).outcome,
        (dispatchAndReport wC7 mdC7 zeroCIConfig).requests,
        (.warn, "failed to get ci.cue") :: (dispatchAndReport wC7 mdC7 zeroCIConfig).logs,
        (dispatchAndReport wC7 mdC7 zeroCIConfig).stdout⟩) :=
  ⟨⟨by decide,
      config_failure_soft.1 gitC7 wC7.decodeCue "newrev" "fatal: not a valid object name"
        (by decide)⟩,
    ⟨by decide, by decide,
      config_failure_soft.2.1 gitC7b decC7b "newrev" "not valid cue" "expected struct"
        (by decide) (by decide)⟩,
    ⟨by decide,
      config_failure_soft.2.2 wC7 "/srv/git/proj.git" "newrev" "refs/heads/main" "oldrev"
        mdC7 "git cat-file newrev:ci.cue: fatal: not a valid object name"
        (by decide) (by decide) (by decide) (by decide) (by decide)⟩⟩

/-- The tekton adapter issues either no request or exactly the one built
from the unsanitized payload. -/
theorem tektonAdapter_requests (w : World) (md : CommitMetadata) (cfg : CIConfig) :
    (tektonAdapter w md cfg).requests = [] ∨
    (tektonAdapter w md cfg).requests =
      [tektonRequest (w.env "TEKTON_TRIGGERS_ENDPOINT")
        (tektonPayloadJSON (mkTektonPayload md cfg))] := by
  unfold tektonAdapter
  dsimp only
  split
  · exact Or.inl rfl
  · split
    · exact Or.inr rfl
    · split
      · exact Or.inr rfl
      · split
        · exact Or.inr rfl
        · exact Or.inr rfl

/-- The buildkite adapter issues either no request or exactly the one built
from the sanitized repository name. -/
theorem buildkiteAdapter_requests (w : World) (md : CommitMetadata) :
    (buildkiteAdapter w md).requests = [] ∨
    (buildkiteAdapter w md).requests =
      [buildkiteRequest (w.env "BUILDKITE_ORG_SLUG") (w.env "BUILDKITE_API_TOKEN")
        (sanitizeRepoName md.repoName) (buildkitePayloadJSON (mkBuildkitePayload md))] := by
  unfold buildkiteAdapter
  dsimp only
  split
  · exact Or.inl rfl
  · split
    · exact Or.inl rfl
    · split
      · exact Or.inr rfl
      · split
        · exact Or.inr rfl
        · split
          · exact Or.inr rfl
          · exact Or.inr rfl

/-- C10: the `.`-to-`-dot-` sanitization applies only to the repository
name inside the REST adapter's URL path; every tekton request body is the
serialization of the unsanitized payload whose `repo` field is the
repository name exactly as derived (directory base name with a trailing
`.git` stripped, dots preserved). -/
theorem sanitization_scope :
    (∀ (w : World) (md : CommitMetadata) (cfg : CIConfig) (req : HttpRequest),
      req ∈ (tektonAdapter w md cfg).requests →
        req.body = tektonPayloadJSON (mkTektonPayload md cfg)) ∧
    (∀ (md : CommitMetadata) (cfg : CIConfig), (mkTektonPayload md cfg).repo = md.repoName) ∧
    (∀ (w : World) (md : CommitMetadata) (req : HttpRequest),
      req ∈ (buildkiteAdapter w md).requests →
        req.url = "https://api.buildkite.com/v2/organizations/" ++
          w.env "BUILDKITE_ORG_SLUG" ++ "/pipelines/" ++
          sanitizeRepoName md.repoName ++ "/builds") ∧
    repoNameOf "/srv/git/my.repo.git" = "my.repo" ∧
    sanitizeRepoName "my.repo" = "my-dot-repo" := by
  refine ⟨?_, fun md cfg => rfl, ?_, by decide, by decide⟩
  · intro w md cfg req hreq
    rcases tektonAdapter_requests w md cfg with hr | hr <;> rw [hr] at hreq
    · exact absurd hreq (by simp)
    · rw [List.mem_singleton.mp hreq]
      rfl
  · intro w md req hreq
    rcases buildkiteAdapter_requests w md with hr | hr <;> rw [hr] at hreq
    · exact absurd hreq (by simp)
    · rw [List.mem_singleton.mp hreq]
      rfl

/-- Witness for `sanitization_scope` at the dotted repository `my.repo`:
the tekton request body preserves the dots while the buildkite URL carries
the sanitized name. -/
theorem sanitization_scope_witness :
    (reqT10 ∈ (tektonAdapter wC10 mdC10 zeroCIConfig).requests ∧
      reqT10.body = tektonPayloadJSON (mkTektonPayload mdC10 zeroCIConfig)) ∧
    (reqB10 ∈ (buildkiteAdapter wC10 mdC10).requests ∧
      reqB10.url = "https://api.buildkite.com/v2/organizations/" ++
        wC10.env "BUILDKITE_ORG_SLUG" ++ "/pipelines/" ++
        sanitizeRepoName mdC10.repoName ++ "/builds") :=
  ⟨⟨by decide, sanitization_scope.1 wC10 mdC10 zeroCIConfig reqT10 (by decide)⟩,
    ⟨by decide, sanitization_scope.2.2.1 wC10 mdC10 reqB10 (by decide)⟩⟩

end Githook
